import Mathlib

/-!
Verification of the Dallinger experiment lifecycle & reconciliation controller.

Shallow embedding of the two source files:
  * `dallinger/heroku/clock.py` — the reconciliation watchdog
    (`check_for_missed_notifications`, `check_for_bad_data`, `expire_hit`,
    `send_notification`, `set_autorecruit`);
  * `dallinger/experiment.py` — the `Experiment` class
    (`get_network_for_participant`, `choose_network`, `recruit`,
    `fail_participant`, `_finish_experiment`).

The database is modelled as explicit lists of records; external side effects
(the MTurk connection, HTTP calls, the session commit) are modelled as values
of explicit action types, so each function returns its updated records
together with the list of external actions it performs, in order.
-/

namespace Dallinger

/-- A row of the Participants table: `id`, `assignment_id`, `hit_id`,
`status`, `creation_time`, `end_time` (times in whole seconds). -/
structure Participant where
  id : Nat
  assignment_id : String
  hit_id : String
  status : String
  creation_time : Nat
  end_time : Nat
  deriving DecidableEq, Repr, Inhabited

/-- A row of the Networks table: `id` (also the creation order), `role`
(practice or experiment), `full` capacity flag. -/
structure Network where
  id : Nat
  role : String
  full : Bool
  deriving DecidableEq, Repr, Inhabited

/-- A row of the Nodes table: owning participant, owning network, and the
`failed` tombstone flag. -/
structure Node where
  id : Nat
  participant_id : Nat
  network_id : Nat
  failed : Bool
  deriving DecidableEq, Repr, Inhabited

/-- External side effects performed by the clock process: the Heroku
config-var patch (`set_autorecruit`), the MTurk `expire_hit` call (whose
argument is the hit id it expires, `none` when `Participant.query.get(1)`
found no row), the HTTP POST to `/notifications` (`send_notification`),
and the database `session.commit()`. -/
inductive ClockAction where
  | setAutorecruit (value : Bool)
  | expireHit (hit : Option String)
  | sendNotification (eventType : String) (assignmentId : String)
  | commit
  deriving DecidableEq, Repr

/-- `Participant.query.get(1).hit_id`: the hit id of the participant whose
primary key is 1, `none` when there is no such row (in which case the Python
raises `AttributeError`). -/
def hitOfParticipant1 (db : List Participant) : Option String :=
  (db.find? (fun p => p.id == 1)).map (fun p => p.hit_id)

/-- `expire_hit()` from clock.py: look up participant 1's hit id and issue the
MTurk expire call for it. -/
def expire_hit (db : List Participant) : List ClockAction :=
  [ClockAction.expireHit (hitOfParticipant1 db)]

/-- `send_notification(event_type, assignment_id)` from clock.py: POST the
synthetic event to the app's `/notifications` endpoint. -/
def send_notification (eventType : String) (assignmentId : String) : List ClockAction :=
  [ClockAction.sendNotification eventType assignmentId]

/-- Python's `str.lower()`, as used in `p.status = status.lower()`:
lower-case every character. (Character-list form of `String.toLower`, which
agrees with Python's `lower()` on ASCII status strings.) -/
def strLower (s : String) : String := ⟨s.data.map Char.toLower⟩

/-- The body of the `for p in participants` loop of
`check_for_missed_notifications`, for one overdue-or-not participant `p`.
`durationSecs` is `duration * 60 * 60` from the config, `currentTime` is
`datetime.now()`, and `oracle` models `conn.get_assignment`: it returns
`some s` when Amazon answers with `AssignmentStatus = s` and `none` when the
call raises (the bare `except` sets `status = None`). Returns the
possibly-updated participant row and the external actions performed. -/
def missedNotificationStep (db : List Participant) (durationSecs currentTime : Nat)
    (oracle : String → Option String) (p : Participant) : Participant × List ClockAction :=
  let pTime := currentTime - p.creation_time
  if pTime > durationSecs + 120 then
    let status := oracle p.assignment_id
    if status = some "Approved" ∨ status = some "Rejected" then
      ({ p with status := strLower (status.getD "") }, [ClockAction.commit])
    else if status = some "Submitted" then
      (p, send_notification "AssignmentSubmitted" p.assignment_id)
    else
      (p, [ClockAction.setAutorecruit false] ++ expire_hit db
            ++ send_notification "NotificationMissing" p.assignment_id)
  else
    (p, [])

/-- `check_for_missed_notifications()` from clock.py: iterate the loop body
over the `status="working"` participants (rows with any other status are left
untouched and contribute no actions), returning the updated table and the
concatenated external actions. -/
def check_for_missed_notifications (db : List Participant) (durationSecs currentTime : Nat)
    (oracle : String → Option String) : List Participant × List ClockAction :=
  let results := db.map (fun p =>
    if p.status == "working" then
      missedNotificationStep db durationSecs currentTime oracle p
    else (p, []))
  (results.map Prod.fst, (results.map Prod.snd).flatten)

/-- The Python slice `l[-t:]`: the whole list when `t = 0`, otherwise the
last `min t l.length` elements. -/
def lastSlice (l : List Participant) (t : Nat) : List Participant :=
  if t = 0 then l else l.drop (l.length - t)

/-- The sort key of `participants.sort(key=lambda x: x.end_time)`. -/
def endTimeLE (a b : Participant) : Prop := a.end_time ≤ b.end_time

instance : DecidableRel endTimeLE := fun a b =>
  inferInstanceAs (Decidable (a.end_time ≤ b.end_time))

instance : IsTotal Participant endTimeLE :=
  ⟨fun a b => Nat.le_total a.end_time b.end_time⟩

instance : IsTrans Participant endTimeLE :=
  ⟨fun _ _ _ hab hbc => Nat.le_trans hab hbc⟩

/-- `participants.sort(key=lambda x: x.end_time)`: stable ascending sort by
`end_time` (insertion sort, which, like Python's sort, is stable). -/
def sortByEndTime (l : List Participant) : List Participant :=
  List.insertionSort endTimeLE l

/-- `check_for_bad_data()` from clock.py: take the participants with
`status != "working"`, sort ascending by `end_time`, keep the slice
`[-threshold:]`; if every kept row has status `bad_data`, disable
autorecruit and expire the hit; otherwise do nothing. -/
def check_for_bad_data (db : List Participant) (threshold : Nat) : List ClockAction :=
  let participants := db.filter (fun p => p.status != "working")
  let recent := lastSlice (sortByEndTime participants) threshold
  if recent.all (fun p => p.status == "bad_data") then
    [ClockAction.setAutorecruit false] ++ expire_hit db
  else
    []

/-- Modelled from the spec: the spec's phrase "the most-recent still-open
assignment" (§4.4), for comparison with what `expire_hit` actually expires.
Still-open assignments are those of participants whose status is `working`;
the most recent is the one with the greatest `creation_time`. Returns its
hit id. This definition follows the spec's words, not the source. -/
def mostRecentOpenHit (db : List Participant) : Option String :=
  let stillOpen := db.filter (fun p => p.status == "working")
  (stillOpen.foldl (fun acc p =>
    match acc with
    | none => some p
    | some q => if p.creation_time > q.creation_time then some p else some q) none).map
    (fun p => p.hit_id)

/-- The sort key of `.order_by(Network.id)`. -/
def idLE (a b : Network) : Prop := a.id ≤ b.id

instance : DecidableRel idLE := fun a b =>
  inferInstanceAs (Decidable (a.id ≤ b.id))

instance : IsTotal Network idLE :=
  ⟨fun a b => Nat.le_total a.id b.id⟩

instance : IsTrans Network idLE :=
  ⟨fun _ _ _ hab hbc => Nat.le_trans hab hbc⟩

/-- `.order_by(Network.id)`: sort networks ascending by id. -/
def sortById (l : List Network) : List Network :=
  List.insertionSort idLE l

/-- The `networks_participated_in` list computed inside
`get_network_for_participant`: the network ids of every Node row (failed or
not) belonging to the participant. -/
def networks_participated_in (nodes : List Node) (participant : Participant) : List Nat :=
  (nodes.filter (fun nd => nd.participant_id == participant.id)).map (fun nd => nd.network_id)

/-- `Experiment.get_network_for_participant(participant)` from experiment.py.
`networks` and `nodes` are the two tables; `choose` models the pluggable
`self.choose_network(legal_networks, participant)` method. Returns `none`
when no legal network remains, otherwise the first legal practice-role
network in id order if one exists, otherwise the network chosen by `choose`
from the legal networks. -/
def get_network_for_participant (networks : List Network) (nodes : List Node)
    (participant : Participant) (choose : List Network → Participant → Network) :
    Option Network :=
  let networks_with_space := sortById (networks.filter (fun n => n.full == false))
  let participated := networks_participated_in nodes participant
  let legal_networks := networks_with_space.filter (fun n => !participated.contains n.id)
  if legal_networks.isEmpty then
    none
  else
    match legal_networks.filter (fun n => n.role == "practice") with
    | [] => some (choose legal_networks participant)
    | n :: _ => some n

/-- `Experiment.choose_network(networks, participant)`, the default policy:
`random.choice(networks)`. The draw of the pseudo-random generator is
modelled by the extra index `k`; for a nonempty list every `k` yields a
member of the list, matching the range of `random.choice`. -/
def choose_network (networks : List Network) (k : Nat) : Network :=
  networks.getD (k % networks.length) default

/-- The external action of `Experiment.recruit`: the
`self.recruiter().close_recruitment()` call. -/
inductive RecruitAction where
  | closeRecruitment
  deriving DecidableEq, Repr

/-- `Experiment.recruit()` from experiment.py: if no network with
`full == false` remains, issue close_recruitment; otherwise do nothing.
The networks table is not modified. -/
def recruit (networks : List Network) : List RecruitAction :=
  if (networks.filter (fun n => n.full == false)).isEmpty then
    [RecruitAction.closeRecruitment]
  else
    []

/-- Modelled from the spec: `Node.fail()` lives in dallinger/models.py, which
is not among the given sources. Per the spec's data model (§3), failing a
node sets its `failed` flag and never removes it: "failing a node never
removes it — it is tombstoned in place". -/
def Node.fail (nd : Node) : Node := { nd with failed := true }

/-- `Experiment.fail_participant(participant)` from experiment.py: query the
nodes with this `participant_id` and `failed == false` and call `fail()` on
each; all other rows are untouched. -/
def fail_participant (nodes : List Node) (participant : Participant) : List Node :=
  nodes.map (fun nd =>
    if nd.participant_id == participant.id && nd.failed == false then nd.fail else nd)

/-- The externally visible steps of `Experiment._finish_experiment`: one
`time.sleep(30)` per unsuccessful poll, the `end_experiment()` teardown, and
the `retrieve_data()` export. -/
inductive RunAction where
  | sleep30
  | endExperiment
  | retrieveData
  deriving DecidableEq, Repr

/-- The `while self.experiment_completed() is False: time.sleep(30)` loop.
`statuses` is the sequence of values returned by successive
`experiment_completed()` polls; the result is the sleeps performed before
the first `true`, or `none` when the list is exhausted without one (the
loop would still be running). -/
def finish_loop : List Bool → Option (List RunAction)
  | [] => none
  | true :: _ => some []
  | false :: rest => (finish_loop rest).map (fun acts => RunAction.sleep30 :: acts)

/-- `Experiment._finish_experiment()` from experiment.py: when the configured
mode is not `debug`, poll `experiment_completed()` every 30 seconds until it
is true, then `end_experiment()`; in every mode, finish with
`retrieve_data()`. -/
def finish_experiment (mode : String) (statuses : List Bool) : Option (List RunAction) :=
  if mode ≠ "debug" then
    (finish_loop statuses).map
      (fun acts => acts ++ [RunAction.endExperiment, RunAction.retrieveData])
  else
    some [RunAction.retrieveData]

/-! ### Helper lemmas -/

theorem check_for_bad_data_eq (db : List Participant) (t : Nat) :
    check_for_bad_data db t =
      if (lastSlice (sortByEndTime (db.filter (fun p => p.status != "working"))) t).all
          (fun p => p.status == "bad_data") then
        [ClockAction.setAutorecruit false, ClockAction.expireHit (hitOfParticipant1 db)]
      else [] := rfl

theorem lastSlice_pos (l : List Participant) (t : Nat) (ht : 0 < t) :
    lastSlice l t = l.drop (l.length - t) := by
  unfold lastSlice
  rw [if_neg (Nat.pos_iff_ne_zero.mp ht)]

/-- Membership in the `legal_networks` list computed by
`get_network_for_participant`: a network is legal exactly when it is in the
table, not full, and not yet participated in. -/
theorem mem_legal_iff (networks : List Network) (nodes : List Node)
    (participant : Participant) (net : Network) :
    net ∈ (sortById (networks.filter (fun n => n.full == false))).filter
        (fun n => !(networks_participated_in nodes participant).contains n.id) ↔
      net ∈ networks ∧ net.full = false ∧
        net.id ∉ networks_participated_in nodes participant := by
  unfold sortById
  simp [List.mem_filter, List.mem_insertionSort, and_assoc]

/-- Let-free unfolding equation for `get_network_for_participant`. -/
theorem get_network_eq (networks : List Network) (nodes : List Node)
    (participant : Participant) (choose : List Network → Participant → Network) :
    get_network_for_participant networks nodes participant choose =
      (if ((sortById (networks.filter (fun n => n.full == false))).filter
            (fun n => !(networks_participated_in nodes participant).contains n.id)).isEmpty then
        none
      else
        match ((sortById (networks.filter (fun n => n.full == false))).filter
            (fun n => !(networks_participated_in nodes participant).contains n.id)).filter
            (fun n => n.role == "practice") with
        | [] => some (choose ((sortById (networks.filter (fun n => n.full == false))).filter
            (fun n => !(networks_participated_in nodes participant).contains n.id)) participant)
        | n :: _ => some n) := rfl

/-- `get_network_for_participant` returns `none` exactly when the
`legal_networks` list is empty. -/
theorem get_network_none_iff (networks : List Network) (nodes : List Node)
    (participant : Participant) (choose : List Network → Participant → Network) :
    get_network_for_participant networks nodes participant choose = none ↔
      (sortById (networks.filter (fun n => n.full == false))).filter
        (fun n => !(networks_participated_in nodes participant).contains n.id) = [] := by
  rw [get_network_eq]
  set L := (sortById (networks.filter (fun n => n.full == false))).filter
      (fun n => !(networks_participated_in nodes participant).contains n.id) with hL
  by_cases h : L.isEmpty = true
  · rw [if_pos h]
    exact iff_of_true rfl (List.isEmpty_iff.mp h)
  · rw [if_neg h]
    apply iff_of_false
    · cases hfp : L.filter (fun n => n.role == "practice") with
      | nil => simp
      | cons a l => simp
    · intro hnil
      rw [hnil] at h
      simp at h

/-- Every network returned by `get_network_for_participant` is a member of the
`legal_networks` list, provided the choose policy picks from its argument. -/
theorem get_network_some_mem (networks : List Network) (nodes : List Node)
    (participant : Participant) (choose : List Network → Participant → Network)
    (hchoose : ∀ l, l ≠ [] → choose l participant ∈ l) (net : Network)
    (h : get_network_for_participant networks nodes participant choose = some net) :
    net ∈ (sortById (networks.filter (fun n => n.full == false))).filter
        (fun n => !(networks_participated_in nodes participant).contains n.id) := by
  rw [get_network_eq] at h
  set L := (sortById (networks.filter (fun n => n.full == false))).filter
      (fun n => !(networks_participated_in nodes participant).contains n.id) with hL
  by_cases hemp : L.isEmpty = true
  · rw [if_pos hemp] at h
    exact absurd h (by simp)
  · rw [if_neg hemp] at h
    cases hfp : L.filter (fun n => n.role == "practice") with
    | nil =>
      rw [hfp] at h
      have hnet : choose L participant = net := Option.some.inj h
      have hne : L ≠ [] := by
        intro hcontra
        rw [hcontra] at hemp
        simp at hemp
      exact hnet ▸ hchoose L hne
    | cons a l =>
      rw [hfp] at h
      have hnet : a = net := Option.some.inj h
      have ha : a ∈ L.filter (fun n => n.role == "practice") := by
        rw [hfp]
        exact List.mem_cons_self a l
      exact hnet ▸ List.mem_of_mem_filter ha

/-! ### Claim theorems -/

/-- C1 counterexample: the claim "if the query to the external platform fails,
no corrective action is taken in that cycle" is false on the code. For a
working participant one second overdue whose status query raises (modelled by
the oracle returning `none`), `check_for_missed_notifications` disables
recruitment, expires the hit and sends a NotificationMissing alert — the
bare `except` sets `status = None`, which falls into the shutdown `else`
branch. The local status is indeed left unchanged. -/
theorem C1_claim_counterexample :
    (Participant.status ⟨1, "A1", "H1", "working", 0, 0⟩ = "working") ∧
    7800 - (Participant.creation_time ⟨1, "A1", "H1", "working", 0, 0⟩) > 3600 + 120 ∧
    (check_for_missed_notifications [⟨1, "A1", "H1", "working", 0, 0⟩] 3600 7800
        (fun _ => none)).2 =
      [ClockAction.setAutorecruit false, ClockAction.expireHit (some "H1"),
       ClockAction.sendNotification "NotificationMissing" "A1"] ∧
    (check_for_missed_notifications [⟨1, "A1", "H1", "working", 0, 0⟩] 3600 7800
        (fun _ => none)).1 = [⟨1, "A1", "H1", "working", 0, 0⟩] := by
  decide

/-- C1 amended: for every overdue working participant whose authoritative
status query fails, the watchdog treats the failure exactly like a
definitively adverse status: it disables recruitment, expires the hit of
participant 1 and sends a NotificationMissing alert for the participant's
assignment; the participant's local status is left unchanged. -/
theorem C1_amended_query_failure_escalates (db : List Participant) (d ct : Nat)
    (oracle : String → Option String) (p : Participant)
    (hw : p.status = "working") (hover : ct - p.creation_time > d + 120)
    (hfail : oracle p.assignment_id = none) :
    missedNotificationStep db d ct oracle p =
      (p, [ClockAction.setAutorecruit false,
           ClockAction.expireHit (hitOfParticipant1 db),
           ClockAction.sendNotification "NotificationMissing" p.assignment_id]) := by
  simp [missedNotificationStep, hfail, hover, expire_hit, send_notification]

/-- C1 amended, witnessed on a concrete overdue participant with a failing
oracle. -/
theorem C1_amended_witness :
    missedNotificationStep [⟨1, "A1", "H1", "working", 0, 0⟩] 3600 7800
        (fun _ => none) ⟨1, "A1", "H1", "working", 0, 0⟩ =
      (⟨1, "A1", "H1", "working", 0, 0⟩,
       [ClockAction.setAutorecruit false,
        ClockAction.expireHit (hitOfParticipant1 [⟨1, "A1", "H1", "working", 0, 0⟩]),
        ClockAction.sendNotification "NotificationMissing" "A1"]) :=
  C1_amended_query_failure_escalates [⟨1, "A1", "H1", "working", 0, 0⟩] 3600 7800
    (fun _ => none) ⟨1, "A1", "H1", "working", 0, 0⟩ rfl (by decide) rfl

/-- C5: for every overdue working participant whose authoritative status is
Approved or Rejected, the watchdog sets the local status to the lower-cased
value and persists it with a commit; the action list is exactly `[commit]`,
so no notification is sent, recruitment is not closed, and no hit is
expired. -/
theorem C5_terminal_status_repair (db : List Participant) (d ct : Nat)
    (oracle : String → Option String) (p : Participant) (s : String)
    (hw : p.status = "working") (hover : ct - p.creation_time > d + 120)
    (hs : oracle p.assignment_id = some s)
    (hterm : s = "Approved" ∨ s = "Rejected") :
    missedNotificationStep db d ct oracle p =
      ({ p with status := strLower s }, [ClockAction.commit]) := by
  rcases hterm with h | h <;> subst h <;>
    simp [missedNotificationStep, hs, hover]

/-- C5, witnessed on a concrete overdue participant whose authoritative
status is Approved: the local status becomes `approved`. -/
theorem C5_witness :
    missedNotificationStep [⟨1, "A5", "H5", "working", 0, 0⟩] 3600 7800
        (fun _ => some "Approved") ⟨1, "A5", "H5", "working", 0, 0⟩ =
      (⟨1, "A5", "H5", "approved", 0, 0⟩, [ClockAction.commit]) :=
  C5_terminal_status_repair [⟨1, "A5", "H5", "working", 0, 0⟩] 3600 7800
    (fun _ => some "Approved") ⟨1, "A5", "H5", "working", 0, 0⟩ "Approved"
    rfl (by decide) rfl (Or.inl rfl)

/-- C6: for every overdue working participant whose authoritative status is
Submitted, the watchdog leaves the local status unchanged and the only
action is re-posting a synthetic AssignmentSubmitted notification for that
participant's assignment to the normal `/notifications` entry point. -/
theorem C6_submitted_replays_notification (db : List Participant) (d ct : Nat)
    (oracle : String → Option String) (p : Participant)
    (hw : p.status = "working") (hover : ct - p.creation_time > d + 120)
    (hs : oracle p.assignment_id = some "Submitted") :
    missedNotificationStep db d ct oracle p =
      (p, [ClockAction.sendNotification "AssignmentSubmitted" p.assignment_id]) := by
  simp [missedNotificationStep, hs, hover, send_notification]

/-- C6, witnessed on a concrete overdue participant whose authoritative
status is Submitted. -/
theorem C6_witness :
    missedNotificationStep [⟨1, "A6", "H6", "working", 0, 0⟩] 3600 7800
        (fun _ => some "Submitted") ⟨1, "A6", "H6", "working", 0, 0⟩ =
      (⟨1, "A6", "H6", "working", 0, 0⟩,
       [ClockAction.sendNotification "AssignmentSubmitted" "A6"]) :=
  C6_submitted_replays_notification [⟨1, "A6", "H6", "working", 0, 0⟩] 3600 7800
    (fun _ => some "Submitted") ⟨1, "A6", "H6", "working", 0, 0⟩ rfl (by decide) rfl

/-- C4 counterexample: the claim says the data-quality check "expires the
most-recent still-open assignment", but `expire_hit` expires the hit of the
participant with primary key 1. On a database where participant 1 is the
bad_data terminated row (hit H1) and participant 2 is a more recent,
still-open (working) row with a different hit H2, the all-bad-data condition
fires (N = 1) and the code expires H1, not the most-recent still-open
assignment's H2. -/
theorem C4_claim_counterexample :
    check_for_bad_data
        [⟨1, "A1", "H1", "bad_data", 0, 10⟩, ⟨2, "A2", "H2", "working", 5, 0⟩] 1 =
      [ClockAction.setAutorecruit false, ClockAction.expireHit (some "H1")] ∧
    mostRecentOpenHit
        [⟨1, "A1", "H1", "bad_data", 0, 10⟩, ⟨2, "A2", "H2", "working", 5, 0⟩] =
      some "H2" ∧
    (some "H1" : Option String) ≠ some "H2" := by
  decide

/-- C4 amended: with a positive threshold N, the data-quality check takes the
N most recently terminated participants (status ≠ working, sorted ascending
by end_time, last N kept); it disables recruitment and expires the hit of
participant 1 (not the most-recent still-open assignment) if and only if all
of the kept rows carry status bad_data; if any kept row has a different
status it takes no action; and every kept row's end_time is at least every
dropped row's end_time (the window really is the most recent). -/
theorem C4_amended_bad_data_window (db : List Participant) (t : Nat) (ht : 0 < t) :
    (check_for_bad_data db t =
        [ClockAction.setAutorecruit false, ClockAction.expireHit (hitOfParticipant1 db)] ↔
      ∀ p ∈ lastSlice (sortByEndTime (db.filter (fun p => p.status != "working"))) t,
        p.status = "bad_data") ∧
    ((∃ p ∈ lastSlice (sortByEndTime (db.filter (fun p => p.status != "working"))) t,
        p.status ≠ "bad_data") → check_for_bad_data db t = []) ∧
    (∀ p ∈ (sortByEndTime (db.filter (fun p => p.status != "working"))).take
        ((sortByEndTime (db.filter (fun p => p.status != "working"))).length - t),
      ∀ q ∈ lastSlice (sortByEndTime (db.filter (fun p => p.status != "working"))) t,
        p.end_time ≤ q.end_time) := by
  have hall_iff : ∀ l : List Participant,
      (l.all (fun p => p.status == "bad_data") = true) ↔
        ∀ p ∈ l, p.status = "bad_data" := by
    intro l
    simp [List.all_eq_true]
  have hA : check_for_bad_data db t =
      [ClockAction.setAutorecruit false, ClockAction.expireHit (hitOfParticipant1 db)] ↔
      ∀ p ∈ lastSlice (sortByEndTime (db.filter (fun p => p.status != "working"))) t,
        p.status = "bad_data" := by
    rw [check_for_bad_data_eq]
    by_cases hc : (lastSlice (sortByEndTime (db.filter (fun p => p.status != "working"))) t).all
        (fun p => p.status == "bad_data") = true
    · rw [if_pos hc]
      exact iff_of_true rfl ((hall_iff _).mp hc)
    · rw [if_neg hc]
      constructor
      · intro h
        exact absurd h (by simp)
      · intro h
        exact absurd ((hall_iff _).mpr h) hc
  refine ⟨hA, ?_, ?_⟩
  · rintro ⟨p, hp, hne⟩
    rw [check_for_bad_data_eq, if_neg]
    intro hcontra
    exact hne ((hall_iff _).mp hcontra p hp)
  · intro p hp q hq
    have hsorted : List.Sorted endTimeLE
        (sortByEndTime (db.filter (fun p => p.status != "working"))) :=
      List.sorted_insertionSort endTimeLE _
    rw [lastSlice_pos _ _ ht] at hq
    have hsplit := hsorted
    rw [← List.take_append_drop
        ((sortByEndTime (db.filter (fun p => p.status != "working"))).length - t)
        (sortByEndTime (db.filter (fun p => p.status != "working"))),
      List.Sorted, List.pairwise_append] at hsplit
    exact hsplit.2.2 p hp q hq

/-- C4 amended, witnessed: one terminated bad_data participant, threshold 1,
the check fires and expires participant 1's hit. -/
theorem C4_amended_witness :
    check_for_bad_data [⟨1, "A1", "H1", "bad_data", 0, 10⟩] 1 =
      [ClockAction.setAutorecruit false,
       ClockAction.expireHit (hitOfParticipant1 [⟨1, "A1", "H1", "bad_data", 0, 10⟩])] :=
  (C4_amended_bad_data_window [⟨1, "A1", "H1", "bad_data", 0, 10⟩] 1 (by decide)).1.mpr
    (by decide)

/-- C10: when the terminated list is no longer than the threshold the slice
`[-threshold:]` is the whole (possibly empty) terminated list, and when every
participant is still `working` (zero terminated participants) the all-bad-data
condition holds vacuously, so the check disables recruitment and expires the
hit. -/
theorem C10_empty_window_fires (db : List Participant) (threshold : Nat) :
    ((sortByEndTime (db.filter (fun p => p.status != "working"))).length ≤ threshold →
      lastSlice (sortByEndTime (db.filter (fun p => p.status != "working"))) threshold =
        sortByEndTime (db.filter (fun p => p.status != "working"))) ∧
    ((∀ p ∈ db, p.status = "working") →
      check_for_bad_data db threshold =
        [ClockAction.setAutorecruit false,
         ClockAction.expireHit (hitOfParticipant1 db)]) := by
  constructor
  · intro h
    unfold lastSlice
    by_cases ht : threshold = 0
    · simp [ht]
    · rw [if_neg ht, Nat.sub_eq_zero_of_le h, List.drop_zero]
  · intro hall
    have hfil : db.filter (fun p => p.status != "working") = [] := by
      rw [List.filter_eq_nil_iff]
      intro p hp
      simp [hall p hp]
    rw [check_for_bad_data_eq, hfil]
    have hslice : lastSlice (sortByEndTime []) threshold = [] := by
      unfold sortByEndTime lastSlice
      simp [List.insertionSort]
    rw [hslice]
    simp

/-- C10, witnessed: a database of two working participants, threshold 3; the
slice is the whole empty terminated list and the shutdown actions fire. -/
theorem C10_witness :
    lastSlice (sortByEndTime
        (([⟨1, "A1", "H1", "working", 0, 0⟩, ⟨2, "A2", "H2", "working", 3, 0⟩] :
          List Participant).filter (fun p => p.status != "working"))) 3 =
      sortByEndTime
        (([⟨1, "A1", "H1", "working", 0, 0⟩, ⟨2, "A2", "H2", "working", 3, 0⟩] :
          List Participant).filter (fun p => p.status != "working")) ∧
    check_for_bad_data
        [⟨1, "A1", "H1", "working", 0, 0⟩, ⟨2, "A2", "H2", "working", 3, 0⟩] 3 =
      [ClockAction.setAutorecruit false,
       ClockAction.expireHit (hitOfParticipant1
         [⟨1, "A1", "H1", "working", 0, 0⟩, ⟨2, "A2", "H2", "working", 3, 0⟩])] :=
  ⟨(C10_empty_window_fires
      [⟨1, "A1", "H1", "working", 0, 0⟩, ⟨2, "A2", "H2", "working", 3, 0⟩] 3).1 (by decide),
   (C10_empty_window_fires
      [⟨1, "A1", "H1", "working", 0, 0⟩, ⟨2, "A2", "H2", "working", 3, 0⟩] 3).2 (by decide)⟩

/-- C2: provided the pluggable choose policy returns a member of the list it
is given (true of the default `random.choice`), `get_network_for_participant`
never returns a network in which the participant already has a node — any
returned network is a non-full network of the table with no Node row for
this participant — and it returns `none` exactly when every non-full network
has already been participated in. -/
theorem C2_no_rejoin_and_none_iff (networks : List Network) (nodes : List Node)
    (participant : Participant) (choose : List Network → Participant → Network)
    (hchoose : ∀ l, l ≠ [] → choose l participant ∈ l) :
    (∀ net, get_network_for_participant networks nodes participant choose = some net →
      net ∈ networks ∧ net.full = false ∧
        ∀ nd ∈ nodes, nd.participant_id = participant.id → nd.network_id ≠ net.id) ∧
    (get_network_for_participant networks nodes participant choose = none ↔
      ∀ net ∈ networks, net.full = false →
        net.id ∈ networks_participated_in nodes participant) := by
  constructor
  · intro net h
    have hmem := (mem_legal_iff networks nodes participant net).mp
      (get_network_some_mem networks nodes participant choose hchoose net h)
    refine ⟨hmem.1, hmem.2.1, ?_⟩
    intro nd hnd hpid heq
    apply hmem.2.2
    rw [← heq]
    exact List.mem_map_of_mem _ (List.mem_filter.mpr ⟨hnd, by simp [hpid]⟩)
  · rw [get_network_none_iff]
    constructor
    · intro hnil net hnet hfull
      by_contra hnp
      have hmem := (mem_legal_iff networks nodes participant net).mpr ⟨hnet, hfull, hnp⟩
      rw [hnil] at hmem
      simp at hmem
    · intro hall
      rw [List.eq_nil_iff_forall_not_mem]
      intro net hmem
      have h3 := (mem_legal_iff networks nodes participant net).mp hmem
      exact h3.2.2 (hall net h3.1 h3.2.1)

/-- C2, witnessed: one non-full network already participated in by the
participant, with the default-style choose policy; the allocator returns
`none`. -/
theorem C2_witness :
    get_network_for_participant [⟨1, "experiment", false⟩] [⟨1, 7, 1, false⟩]
        ⟨7, "A7", "H7", "working", 0, 0⟩ (fun l _ => l.getD 0 default) = none :=
  (C2_no_rejoin_and_none_iff [⟨1, "experiment", false⟩] [⟨1, 7, 1, false⟩]
      ⟨7, "A7", "H7", "working", 0, 0⟩ (fun l _ => l.getD 0 default)
      (by
        intro l hl
        cases l with
        | nil => exact absurd rfl hl
        | cons a t => simp [List.getD])).2.mpr (by decide)

/-- C3: whenever some eligible (non-full, not yet participated-in) network
with role practice exists, `get_network_for_participant` returns an eligible
practice network whose id is least among eligible practice networks (the
first in creation order), and the result does not depend on the pluggable
choose policy — the policy is consulted only when no practice network is
eligible. -/
theorem C3_practice_priority (networks : List Network) (nodes : List Node)
    (participant : Participant)
    (choose1 choose2 : List Network → Participant → Network)
    (hp : ∃ net ∈ networks, net.full = false ∧ net.role = "practice" ∧
        net.id ∉ networks_participated_in nodes participant) :
    ∃ net, get_network_for_participant networks nodes participant choose1 = some net ∧
      net.role = "practice" ∧ net.full = false ∧ net ∈ networks ∧
      net.id ∉ networks_participated_in nodes participant ∧
      (∀ net2 ∈ networks, net2.full = false → net2.role = "practice" →
        net2.id ∉ networks_participated_in nodes participant → net.id ≤ net2.id) ∧
      get_network_for_participant networks nodes participant choose1 =
        get_network_for_participant networks nodes participant choose2 := by
  obtain ⟨w, hw, hwf, hwr, hwp⟩ := hp
  have hwL : w ∈ (sortById (networks.filter (fun n => n.full == false))).filter
      (fun n => !(networks_participated_in nodes participant).contains n.id) :=
    (mem_legal_iff networks nodes participant w).mpr ⟨hw, hwf, hwp⟩
  set L := (sortById (networks.filter (fun n => n.full == false))).filter
      (fun n => !(networks_participated_in nodes participant).contains n.id) with hL
  have hwLP : w ∈ L.filter (fun n => n.role == "practice") :=
    List.mem_filter.mpr ⟨hwL, by simp [hwr]⟩
  have hLne : L.isEmpty = false := by
    rw [List.isEmpty_eq_false_iff_exists_mem]
    exact ⟨w, hwL⟩
  have hLP_sorted : List.Pairwise idLE (L.filter (fun n => n.role == "practice")) := by
    have h1 : List.Pairwise idLE (sortById (networks.filter (fun n => n.full == false))) :=
      List.sorted_insertionSort idLE _
    exact (h1.filter _).filter _
  cases hfp : L.filter (fun n => n.role == "practice") with
  | nil =>
    rw [hfp] at hwLP
    exact absurd hwLP (by simp)
  | cons a rest =>
    have haLP : a ∈ L.filter (fun n => n.role == "practice") := by
      rw [hfp]
      exact List.mem_cons_self a rest
    have haL : a ∈ L := List.mem_of_mem_filter haLP
    have har : a.role = "practice" := by
      have := (List.mem_filter.mp haLP).2
      simpa using this
    have hmem := (mem_legal_iff networks nodes participant a).mp haL
    have hres : ∀ choose : List Network → Participant → Network,
        get_network_for_participant networks nodes participant choose = some a := by
      intro choose
      rw [get_network_eq, ← hL, hLne]
      simp only [Bool.false_eq_true, if_false]
      rw [hfp]
    refine ⟨a, hres choose1, har, hmem.2.1, hmem.1, hmem.2.2, ?_, ?_⟩
    · intro net2 h2n h2f h2r h2p
      have h2LP : net2 ∈ L.filter (fun n => n.role == "practice") :=
        List.mem_filter.mpr ⟨(mem_legal_iff networks nodes participant net2).mpr
          ⟨h2n, h2f, h2p⟩, by simp [h2r]⟩
      rw [hfp] at h2LP
      rcases List.mem_cons.mp h2LP with h | h
      · rw [h]
      · rw [hfp] at hLP_sorted
        exact (List.pairwise_cons.mp hLP_sorted).1 net2 h
    · rw [hres choose1, hres choose2]

/-- C3, witnessed: a practice and an experiment network both eligible; the
practice one (id 1) is returned under two different choose policies. -/
theorem C3_witness :
    ∃ net, get_network_for_participant
        [⟨2, "experiment", false⟩, ⟨1, "practice", false⟩] []
        ⟨7, "A7", "H7", "working", 0, 0⟩ (fun l _ => l.getD 0 default) = some net ∧
      net.role = "practice" ∧ net.full = false ∧
      net ∈ [(⟨2, "experiment", false⟩ : Network), ⟨1, "practice", false⟩] ∧
      net.id ∉ networks_participated_in [] ⟨7, "A7", "H7", "working", 0, 0⟩ ∧
      (∀ net2 ∈ [(⟨2, "experiment", false⟩ : Network), ⟨1, "practice", false⟩],
        net2.full = false → net2.role = "practice" →
        net2.id ∉ networks_participated_in [] ⟨7, "A7", "H7", "working", 0, 0⟩ →
          net.id ≤ net2.id) ∧
      get_network_for_participant
        [⟨2, "experiment", false⟩, ⟨1, "practice", false⟩] []
        ⟨7, "A7", "H7", "working", 0, 0⟩ (fun l _ => l.getD 0 default) =
      get_network_for_participant
        [⟨2, "experiment", false⟩, ⟨1, "practice", false⟩] []
        ⟨7, "A7", "H7", "working", 0, 0⟩ (fun l _ => l.getD 1 default) :=
  C3_practice_priority [⟨2, "experiment", false⟩, ⟨1, "practice", false⟩] []
    ⟨7, "A7", "H7", "working", 0, 0⟩ (fun l _ => l.getD 0 default)
    (fun l _ => l.getD 1 default)
    ⟨⟨1, "practice", false⟩, by decide, by decide, by decide, by decide⟩

/-- C7: `recruit` issues the close-recruitment command exactly when every
network is full, and in the presence of any non-full network it performs no
action at all (the networks table is not touched by `recruit` in any case —
it only reads it). -/
theorem C7_recruit_close_iff (networks : List Network) :
    (recruit networks = [RecruitAction.closeRecruitment] ↔
      ∀ n ∈ networks, n.full = true) ∧
    ((∃ n ∈ networks, n.full = false) → recruit networks = []) := by
  have hiff : (networks.filter (fun n => n.full == false)).isEmpty = true ↔
      ∀ n ∈ networks, n.full = true := by
    rw [List.isEmpty_iff, List.filter_eq_nil_iff]
    constructor
    · intro h n hn
      have := h n hn
      simpa using this
    · intro h n hn
      simp [h n hn]
  constructor
  · unfold recruit
    by_cases h : (networks.filter (fun n => n.full == false)).isEmpty = true
    · rw [if_pos h]
      exact iff_of_true rfl (hiff.mp h)
    · rw [if_neg h]
      constructor
      · intro habs
        exact absurd habs (by simp)
      · intro hall
        exact absurd (hiff.mpr hall) h
  · rintro ⟨n, hn, hf⟩
    unfold recruit
    rw [if_neg]
    intro hcontra
    have := hiff.mp hcontra n hn
    rw [hf] at this
    simp at this

/-- C7, witnessed: with a single full network, close_recruitment is issued;
with a single non-full network, nothing happens. -/
theorem C7_witness :
    recruit [⟨1, "experiment", true⟩] = [RecruitAction.closeRecruitment] ∧
    recruit [⟨1, "experiment", false⟩] = [] :=
  ⟨(C7_recruit_close_iff [⟨1, "experiment", true⟩]).1.mpr (by decide),
   (C7_recruit_close_iff [⟨1, "experiment", false⟩]).2
     ⟨⟨1, "experiment", false⟩, by decide, by decide⟩⟩

/-- C8: `fail_participant` fails every node of the participant, is
idempotent (a second call is a no-op on the table, so the set of failed
nodes after failing twice equals the set after failing once), the set of
nodes `fail()` would be invoked on in a second call — those with
`failed == false` — is empty, and nodes of other participants are
untouched. -/
theorem C8_fail_participant_idempotent (nodes : List Node) (participant : Participant) :
    (∀ nd ∈ fail_participant nodes participant,
      nd.participant_id = participant.id → nd.failed = true) ∧
    fail_participant (fail_participant nodes participant) participant =
      fail_participant nodes participant ∧
    (fail_participant nodes participant).filter
      (fun nd => nd.participant_id == participant.id && nd.failed == false) = [] ∧
    (∀ nd ∈ nodes, nd.participant_id ≠ participant.id →
      nd ∈ fail_participant nodes participant) := by
  have hafter : ∀ nd ∈ fail_participant nodes participant,
      nd.participant_id = participant.id → nd.failed = true := by
    intro nd hnd hpid
    obtain ⟨nd0, hnd0, rfl⟩ := List.mem_map.mp hnd
    by_cases hc : (nd0.participant_id == participant.id && nd0.failed == false) = true
    · rw [if_pos hc]
      rfl
    · rw [if_neg hc] at hpid ⊢
      rw [Bool.and_eq_true] at hc
      push_neg at hc
      have h2 := hc (by simp [hpid])
      simpa using h2
  refine ⟨hafter, ?_, ?_, ?_⟩
  · unfold fail_participant
    rw [List.map_map]
    apply List.map_congr_left
    intro a _
    simp only [Function.comp]
    by_cases hc : (a.participant_id == participant.id && a.failed == false) = true
    · rw [if_pos hc]
      have : (a.fail.participant_id == participant.id && a.fail.failed == false) = false := by
        simp [Node.fail]
      rw [this]
      simp
    · rw [if_neg hc, if_neg hc]
  · rw [List.filter_eq_nil_iff]
    intro nd hnd
    by_cases hpid : nd.participant_id = participant.id
    · have := hafter nd hnd hpid
      simp [this]
    · simp [hpid]
  · intro nd hnd hne
    refine List.mem_map.mpr ⟨nd, hnd, ?_⟩
    simp [hne]

/-- C8, witnessed: a participant with one unfailed and one already-failed
node, plus another participant's node; all four conjuncts at this input. -/
theorem C8_witness :
    (∀ nd ∈ fail_participant [⟨1, 7, 1, false⟩, ⟨2, 7, 2, true⟩, ⟨3, 8, 1, false⟩]
        ⟨7, "A7", "H7", "working", 0, 0⟩,
      nd.participant_id = (⟨7, "A7", "H7", "working", 0, 0⟩ : Participant).id →
        nd.failed = true) ∧
    fail_participant (fail_participant [⟨1, 7, 1, false⟩, ⟨2, 7, 2, true⟩, ⟨3, 8, 1, false⟩]
        ⟨7, "A7", "H7", "working", 0, 0⟩) ⟨7, "A7", "H7", "working", 0, 0⟩ =
      fail_participant [⟨1, 7, 1, false⟩, ⟨2, 7, 2, true⟩, ⟨3, 8, 1, false⟩]
        ⟨7, "A7", "H7", "working", 0, 0⟩ ∧
    (fail_participant [⟨1, 7, 1, false⟩, ⟨2, 7, 2, true⟩, ⟨3, 8, 1, false⟩]
        ⟨7, "A7", "H7", "working", 0, 0⟩).filter
      (fun nd => nd.participant_id == (⟨7, "A7", "H7", "working", 0, 0⟩ : Participant).id
        && nd.failed == false) = [] ∧
    (∀ nd ∈ [(⟨1, 7, 1, false⟩ : Node), ⟨2, 7, 2, true⟩, ⟨3, 8, 1, false⟩],
      nd.participant_id ≠ (⟨7, "A7", "H7", "working", 0, 0⟩ : Participant).id →
        nd ∈ fail_participant [⟨1, 7, 1, false⟩, ⟨2, 7, 2, true⟩, ⟨3, 8, 1, false⟩]
          ⟨7, "A7", "H7", "working", 0, 0⟩) :=
  C8_fail_participant_idempotent [⟨1, 7, 1, false⟩, ⟨2, 7, 2, true⟩, ⟨3, 8, 1, false⟩]
    ⟨7, "A7", "H7", "working", 0, 0⟩

/-- The polling loop performs one sleep per unsuccessful poll: `k` polls
answering false followed by a true yield exactly `k` sleeps. -/
theorem finish_loop_replicate (k : Nat) (rest : List Bool) :
    finish_loop (List.replicate k false ++ true :: rest) =
      some (List.replicate k RunAction.sleep30) := by
  induction k with
  | zero => rfl
  | succ n ih =>
    rw [List.replicate_succ, List.cons_append]
    simp [finish_loop, ih, List.replicate_succ]

/-- C9: in debug mode `_finish_experiment` skips the polling loop and the
teardown and goes straight to data retrieval; in any other mode, when the
status endpoint answers false `k` times and then true, it sleeps 30 seconds
after each false answer, then tears the deployment down, then retrieves the
data. -/
theorem C9_finish_experiment (mode : String) (statuses : List Bool)
    (k : Nat) (rest : List Bool) :
    (mode = "debug" → finish_experiment mode statuses = some [RunAction.retrieveData]) ∧
    (mode ≠ "debug" →
      finish_experiment mode (List.replicate k false ++ true :: rest) =
        some (List.replicate k RunAction.sleep30 ++
          [RunAction.endExperiment, RunAction.retrieveData])) := by
  constructor
  · intro h
    simp [finish_experiment, h]
  · intro h
    simp [finish_experiment, h, finish_loop_replicate]

/-- C9, witnessed: debug mode retrieves immediately; live mode with one
false poll sleeps once, tears down, retrieves. -/
theorem C9_witness :
    finish_experiment "debug" [false] = some [RunAction.retrieveData] ∧
    finish_experiment "live" [false, true] =
      some [RunAction.sleep30, RunAction.endExperiment, RunAction.retrieveData] :=
  ⟨(C9_finish_experiment "debug" [false] 0 []).1 rfl,
   (C9_finish_experiment "live" [] 1 []).2 (by decide)⟩

end Dallinger
